import Mathlib

/-!
# Verification of the VibeVoice caption timing engine

Shallow embedding of `vibevoice/caption/simple_caption_generator.py` and
`vibevoice/caption/caption_formatter.py`.

Modelling conventions:
* Python `float` arithmetic is modelled over `ℚ`; every operation the claims
  touch (additions, clamps with `min`/`max`, the final end-time assignments,
  `divmod`-style floor splits) is exact, so truth values of the stated
  (in)equalities are preserved.
* Python strings are modelled as `String`/`List Char`; `str.strip`, `str.split`
  and the two regular expressions of the source are implemented character by
  character below, matching the source patterns.
* Fallible stages (`_align_with_faster_whisper`, which returns `None` on an
  unavailable ASR, a load error or zero word timings, and
  `_detect_audio_aligned_segments`, which returns `None` when the tool is
  absent, exits non-zero or detects no silences) are modelled as `Option`
  inputs at the subprocess boundary; `None`/empty-list truthiness of the
  source's `if` guards is preserved.
* The speaker-name mapping (a Python dict or `None`) is an
  `Option (List (Nat × String))`; an empty dict and `None` behave identically
  in the source (`if speaker_mapping` truthiness) and here.
-/

/- Batteries marks the `Rat` field operations `@[irreducible]`; re-open them so
   that concrete runs of the embedding reduce inside `decide` proofs. -/
unseal Rat.add Rat.mul Rat.sub Rat.inv Rat.ofScientific

/-! ## Generator configuration (defaults of `SimpleCaptionGenerator.__init__`) -/

def wordsPerMinute : ℚ := 120

def minSegmentDuration : ℚ := 1

def maxSegmentDuration : ℚ := 60

def pauseBetweenSpeakers : ℚ := 1

def pauseBetweenSegments : ℚ := 0.8

/-- `CALIBRATION_OFFSET` of `_build_segments_from_audio_alignment_with_word_count`. -/
def calibrationOffset : ℚ := 3

/-- `max_words` default of `_split_long_segment`. -/
def maxWords : Nat := 15

/-! ## String primitives (Python `str` operations used by the source) -/

/-- The ASCII apostrophe character (written by code point to keep the source
    free of bare quote characters). -/
def apos : Char := Char.ofNat 39

/-- Python `str.strip()` on a character list: drop whitespace from both ends. -/
def trimChars (l : List Char) : List Char :=
  ((l.dropWhile Char.isWhitespace).reverse.dropWhile Char.isWhitespace).reverse

/-- Python `str.strip()`. -/
def pyStrip (s : String) : String := String.mk (trimChars s.data)

/-- Python `str.lower()` (ASCII case folding, as the source only compares
    ASCII words). -/
def toLowerStr (s : String) : String := String.mk (s.data.map Char.toLower)

/-- Python `str.split()` (split on whitespace runs, dropping empty pieces),
    accumulator-based. -/
def splitWsAux : List Char → List Char → List (List Char)
  | [], acc => if acc.isEmpty then [] else [acc.reverse]
  | c :: cs, acc =>
    if c.isWhitespace then
      if acc.isEmpty then splitWsAux cs [] else acc.reverse :: splitWsAux cs []
    else splitWsAux cs (c :: acc)

/-- Python `str.split()`. -/
def pySplitWs (s : String) : List String := (splitWsAux s.data []).map String.mk

/-- Python `str.split('\n')`, accumulator-based (`''.split('\n') == ['']`). -/
def splitNlAux : List Char → List Char → List (List Char)
  | [], acc => [acc.reverse]
  | c :: cs, acc =>
    if c = Char.ofNat 10 then acc.reverse :: splitNlAux cs [] else splitNlAux cs (c :: acc)

/-- `len(text.split())`, the word count the parser attaches to units. -/
def wordCount (s : String) : Nat := (pySplitWs s).length

/-- Python `w.strip('.,!?;:')`, used to normalise script-side words before
    whisper matching. -/
def isEdgePunct (c : Char) : Bool :=
  c = Char.ofNat 46 ∨ c = Char.ofNat 44 ∨ c = Char.ofNat 33 ∨ c = Char.ofNat 63 ∨
    c = Char.ofNat 59 ∨ c = Char.ofNat 58

def stripPunctBoth (s : String) : String :=
  String.mk (((s.data.dropWhile isEdgePunct).reverse.dropWhile isEdgePunct).reverse)

/-- Python `s.replace(chr(39), '')`, the apostrophe-removed variant used by
    the whisper matcher. -/
def removeApos (s : String) : String := String.mk (s.data.filter (fun c => c ≠ apos))

/-- Python `int(q)` on a float: truncation toward zero. -/
def pyInt (q : ℚ) : ℤ := if 0 ≤ q then ⌊q⌋ else -⌊-q⌋

/-- Python truthiness-compatible digit-string to int (group 1 of the speaker
    regex, `int(match.group(1))`). -/
def digitsToNat (l : List Char) : Nat :=
  l.foldl (fun a c => a * 10 + (c.toNat - 48)) 0

/-! ## Data model -/

/-- A parsed atomic caption unit: one dict produced by
    `_parse_script_segments` / `_split_long_segment`. -/
structure ScriptUnit where
  speaker_id : Nat
  text : String
  word_count : Nat
  char_count : Nat
deriving DecidableEq

/-- A timed caption segment (the dicts produced by the three timing builders
    and consumed by the formatters). -/
structure Caption where
  start_time : ℚ
  end_time : ℚ
  text : String
  speaker_id : Nat
  speaker_name : String
  confidence : ℚ
  word_count : Nat
  char_count : Nat
deriving DecidableEq

/-- One word-level timing from the ASR (`{'word': …, 'start': …, 'end': …}`;
    the `end` key is called `finish` here because `end` is reserved). -/
structure WordTiming where
  word : String
  start : ℚ
  finish : ℚ
deriving DecidableEq

/-- A detected speech span `(start, end)` in seconds. -/
abbrev Span := ℚ × ℚ

def dummyCap : Caption := ⟨0, 0, "", 0, "", 0, 0, 0⟩

def wtDummy : WordTiming := ⟨"", 0, 0⟩

/-- `f"Speaker {speaker_id}"`, the default speaker name. -/
def defaultSpeakerName (i : Nat) : String := "Speaker " ++ toString i

/-- `speaker_mapping.get(speaker_id, f"Speaker {speaker_id}") if speaker_mapping
    else f"Speaker {speaker_id}"`. -/
def resolveSpeaker (m : Option (List (Nat × String))) (i : Nat) : String :=
  match m with
  | none => defaultSpeakerName i
  | some mp =>
    match mp.lookup i with
    | some s => s
    | none => defaultSpeakerName i

/-! ## Script parser (`_split_into_sentences`, `_split_long_segment`,
    `_parse_script_segments`) -/

/-- Does this (reversed-accumulator) piece end in `.`, `!` or `?` — the
    lookbehind `(?<=[.!?])` of the sentence-splitting regex. -/
def endsSentence : List Char → Bool
  | p :: _ => p = Char.ofNat 46 ∨ p = Char.ofNat 33 ∨ p = Char.ofNat 63
  | [] => false

/-- `re.split(r"(?<=[.!?])\s+", text)`: split on a whitespace run that follows
    sentence punctuation, consuming the whole run.  Fuel-based (the fuel is
    the character count, which bounds the recursion depth). -/
def splitSentAux : Nat → List Char → List Char → List (List Char)
  | 0, l, acc => [acc.reverse ++ l]
  | _ + 1, [], acc => [acc.reverse]
  | fuel + 1, c :: cs, acc =>
    if endsSentence acc ∧ c.isWhitespace then
      acc.reverse :: splitSentAux fuel (cs.dropWhile Char.isWhitespace) []
    else splitSentAux fuel cs (c :: acc)

/-- `SimpleCaptionGenerator._split_into_sentences`. -/
def splitIntoSentences (text : String) : List String :=
  let st := pyStrip text
  if st = "" then []
  else
    let parts := splitSentAux st.data.length st.data []
    let sentences := ((parts.map trimChars).filter (fun l => ¬l.isEmpty)).map String.mk
    if sentences.isEmpty then [st] else sentences

/-- The sentence-packing fold of `_split_long_segment`: accumulate sentences
    in a running chunk, flushing it whenever adding the next sentence would
    push the running word count past `max_words` (and the chunk is non-empty). -/
def chunkAux : List String → Nat → List String → List (List String)
  | cur, _, [] => if cur.isEmpty then [] else [cur]
  | cur, cnt, s :: rest =>
    let wc := wordCount s
    if cnt + wc > maxWords ∧ ¬cur.isEmpty then cur :: chunkAux [s] wc rest
    else chunkAux (cur ++ [s]) (cnt + wc) rest

def chunkSentences (sentences : List String) : List (List String) :=
  chunkAux [] 0 sentences

/-- Python `' '.join`. -/
def joinSpace : List String → String
  | [] => ""
  | [s] => s
  | s :: rest => s ++ " " ++ joinSpace rest

/-- The dict appended per chunk by `_split_long_segment` (its `word_count` is
    the accumulated per-sentence word count). -/
def mkUnit (speaker : Nat) (chunk : List String) : ScriptUnit :=
  let t := joinSpace chunk
  ⟨speaker, t, (chunk.map wordCount).sum, t.length⟩

/-- `SimpleCaptionGenerator._split_long_segment` (default `max_words = 15`). -/
def splitLongSegment (speaker : Nat) (text : String) : List ScriptUnit :=
  (chunkSentences (splitIntoSentences text)).map (mkUnit speaker)

/-- Case-insensitive literal match: consume `pat` (given lowercase) from the
    front of `cs`, comparing lowercased characters. -/
def dropCaseInsensitive : List Char → List Char → Option (List Char)
  | [], rest => some rest
  | _ :: _, [] => none
  | p :: ps, c :: cs => if c.toLower = p then dropCaseInsensitive ps cs else none

/-- `re.match(r'^Speaker\s+(\d+)\s*:\s*(.*)$', line, re.IGNORECASE)`:
    returns `(int(group(1)), group(2))` on a match.  The greedy `\s*` after
    the colon leaves group 2 with no leading whitespace. -/
def matchSpeakerLine (s : String) : Option (Nat × String) :=
  match dropCaseInsensitive "speaker".data s.data with
  | none => none
  | some r1 =>
    if (r1.takeWhile Char.isWhitespace).isEmpty then none
    else
      let r2 := r1.dropWhile Char.isWhitespace
      let ds := r2.takeWhile Char.isDigit
      if ds.isEmpty then none
      else
        match (r2.dropWhile Char.isDigit).dropWhile Char.isWhitespace with
        | c :: r5 =>
          if c = Char.ofNat 58 then
            some (digitsToNat ds, String.mk (r5.dropWhile Char.isWhitespace))
          else none
        | [] => none

/-- The per-line fold of `_parse_script_segments`: the option is the tracked
    `current_speaker_id`. -/
def parseLines : Option Nat → List String → List ScriptUnit
  | _, [] => []
  | cur, l :: ls =>
    let line := pyStrip l
    if line = "" then parseLines cur ls
    else
      match matchSpeakerLine line with
      | some (n, g2) =>
        let txt := pyStrip g2
        (if txt ≠ "" then splitLongSegment n txt else []) ++ parseLines (some n) ls
      | none =>
        match cur with
        | some n => splitLongSegment n line ++ parseLines (some n) ls
        | none => splitLongSegment 1 line ++ parseLines (some 1) ls

/-- `SimpleCaptionGenerator._parse_script_segments`. -/
def parseScript (script : String) : List ScriptUnit :=
  parseLines none ((splitNlAux (pyStrip script).data []).map String.mk)

/-! ## SRT formatter (`CaptionFormatter.format_srt`, `_format_srt_time`) -/

def pad2 (n : Nat) : String := if n < 10 then "0" ++ toString n else toString n

def pad3 (n : Nat) : String :=
  if n < 10 then "00" ++ toString n
  else if n < 100 then "0" ++ toString n else toString n

/-- `_format_srt_time`: `divmod(total_seconds, 3600)`, `divmod(rem, 60)`,
    `int((seconds % 1) * 1000)`, rendered `HH:MM:SS,mmm`.  (`int(...)` casts
    are truncations; all quantities are non-negative for caption times.) -/
def formatSrtTime (q : ℚ) : String :=
  let hours : ℤ := ⌊q / 3600⌋
  let rem : ℚ := q - 3600 * hours
  let minutes : ℤ := ⌊rem / 60⌋
  let secs : ℚ := rem - 60 * minutes
  let ms : ℤ := pyInt ((secs - ⌊secs⌋) * 1000)
  pad2 hours.toNat ++ ":" ++ pad2 minutes.toNat ++ ":" ++ pad2 (⌊secs⌋).toNat ++
    "," ++ pad3 ms.toNat

/-- The display line: `f"[{speaker}] {text}"` when a speaker name is present. -/
def displayText (seg : Caption) : String :=
  let text := pyStrip seg.text
  if seg.speaker_name ≠ "" then "[" ++ seg.speaker_name ++ "] " ++ text else text

/-- Python `'\n'.join`. -/
def joinNl : List String → String
  | [] => ""
  | [s] => s
  | s :: rest => s ++ "\n" ++ joinNl rest

/-- `CaptionFormatter.format_srt` (string-returning path): per segment, the
    1-based index, the `start --> end` line, the display line, and an empty
    separator line, all joined with newlines. -/
def formatSrt (segs : List Caption) : String :=
  joinNl (segs.enum.flatMap fun p =>
    [toString (p.1 + 1),
     formatSrtTime p.2.start_time ++ " --> " ++ formatSrtTime p.2.end_time,
     displayText p.2,
     ""])

/-! ## Heuristic estimator (the fallback block of `_calculate_timing`,
    lines 263–419).  The `estimated_duration`/`time_scale` computation of
    lines 264–297 feeds only a debug `print` and is omitted. -/

/-- The inter-segment pause list (lines 309–321): base pause by speaker
    change, multiplied by up to 1.5 for pair indices in the latter half. -/
def pauseDurations (units : List ScriptUnit) : List ℚ :=
  let n := units.length
  (List.range (n - 1)).map fun i =>
    let cs := (units.getD i ⟨0, "", 0, 0⟩).speaker_id
    let ns := (units.getD (i + 1) ⟨0, "", 0, 0⟩).speaker_id
    let base := if ns ≠ cs then pauseBetweenSpeakers else pauseBetweenSegments
    if (i : ℚ) ≥ (n : ℚ) * 0.5 then
      base * (1 + ((i : ℚ) - (n : ℚ) * 0.5) / ((n : ℚ) * 0.5) * 0.5)
    else base

/-- The pre-scale per-unit base durations (lines 326–344): proportional share
    of `available_time` by word count, progressive slowdown past the 20%
    index, floored at `min_segment_duration`.  No `max_segment_duration`
    ceiling appears in the source. -/
def baseSegmentDurations (units : List ScriptUnit) (audioDuration : ℚ) : List ℚ :=
  let totalWords := (units.map (fun u => u.word_count)).sum
  let availableTime := audioDuration - (pauseDurations units).sum
  let n := units.length
  units.enum.map fun p =>
    let i := p.1
    let base :=
      if totalWords > 0 then availableTime * ((p.2.word_count : ℚ) / (totalWords : ℚ))
      else availableTime / (n : ℚ)
    let base2 :=
      if (i : ℚ) ≥ (n : ℚ) * 0.2 then
        base * (1 + ((i : ℚ) - (n : ℚ) * 0.2) / ((n : ℚ) * 0.8) * 0.6)
      else base
    max minSegmentDuration base2

/-- `total_base_time` of line 347. -/
def heuristicTotalBase (units : List ScriptUnit) (audioDuration : ℚ) : ℚ :=
  (baseSegmentDurations units audioDuration).sum + (pauseDurations units).sum

/-- The scale factor of lines 347–355.  The source keeps the unscaled lists
    when `total_base_time ≤ 0` or the mismatch is within `0.01`; that is the
    same as multiplying by `1`, so the factor is returned and applied
    uniformly. -/
def heuristicScale (units : List ScriptUnit) (audioDuration : ℚ) : ℚ :=
  if heuristicTotalBase units audioDuration > 0 ∧
      |heuristicTotalBase units audioDuration - audioDuration| > 0.01 then
    audioDuration / heuristicTotalBase units audioDuration
  else 1

def adjustedSegmentDurations (units : List ScriptUnit) (audioDuration : ℚ) : List ℚ :=
  (baseSegmentDurations units audioDuration).map (· * heuristicScale units audioDuration)

def scaledPauseDurations (units : List ScriptUnit) (audioDuration : ℚ) : List ℚ :=
  (pauseDurations units).map (· * heuristicScale units audioDuration)

/-- The caption dict appended by each timing builder. -/
def mkCaption (u : ScriptUnit) (s e : ℚ) (m : Option (List (Nat × String))) : Caption :=
  ⟨s, e, u.text, u.speaker_id, resolveSpeaker m u.speaker_id, 1, u.word_count, u.char_count⟩

/-- `caption_segments[-1]['end_time'] = a` (the final snap each builder
    performs on a non-empty list). -/
def setLastEnd (a : ℚ) : List Caption → List Caption
  | [] => []
  | [c] => [{ c with end_time := a }]
  | c :: c2 :: rest => c :: setLastEnd a (c2 :: rest)

/-- The drift guard of lines 375–377: `end_time = current + duration`,
    clamped down to `audio_duration`. -/
def clampEnd (A t d : ℚ) : ℚ := if t + d > A then A else t + d

/-- The pause clamp of lines 405–407: a pause longer than the remaining time
    is cut to `max(0.0, remaining)`. -/
def clampPause (A e p : ℚ) : ℚ := if p > A - e then max 0 (A - e) else p

/-- The emission loop of lines 359–413: each unit is given its adjusted
    duration; the end time is clamped to `audio_duration` (and forced to it on
    the last unit); the scaled pause, clamped to the remaining time, advances
    the cursor. -/
def hGo (A : ℚ) (m : Option (List (Nat × String))) :
    ℚ → List (ScriptUnit × ℚ) → List ℚ → List Caption
  | _, [], _ => []
  | t, [(u, _)], _ => [mkCaption u t A m]
  | t, (u, d) :: u2 :: rest, ps =>
    let e := clampEnd A t d
    let p2 := clampPause A e (ps.headD 0)
    mkCaption u t e m :: hGo A m (e + p2) (u2 :: rest) ps.tail

/-- The heuristic timing strategy (the `_calculate_timing` fallback),
    including the final `caption_segments[-1]['end_time'] = audio_duration`. -/
def heuristicTiming (units : List ScriptUnit) (audioDuration : ℚ)
    (m : Option (List (Nat × String))) : List Caption :=
  setLastEnd audioDuration
    (hGo audioDuration m 0 (units.zip (adjustedSegmentDurations units audioDuration))
      (scaledPauseDurations units audioDuration))

/-! ## Silence-alignment builder
    (`_build_segments_from_audio_alignment_with_word_count`) -/

/-- The count-mismatch padding loop (lines 989–991): append
    `(last_end, last_end + 1.0)` until the counts agree. -/
def padSpansAux : Nat → List Span → List Span
  | 0, l => l
  | k + 1, l =>
    let e := (l.getLastD (0, 0)).2
    padSpansAux k (l ++ [(e, e + 1)])

/-- Lines 984–991: truncate when there are too many detected spans, pad when
    there are too few. -/
def adjustSpanCount (n : Nat) (l : List Span) : List Span :=
  if l.length > n then l.take n else padSpansAux (n - l.length) l

/-- Lines 994–1000: the first application of `CALIBRATION_OFFSET` to the
    detected span boundaries, clamped into `[0, audio_duration]`. -/
def calibrateSpans (audioDuration : ℚ) (l : List Span) : List Span :=
  l.map fun p =>
    (max 0 (p.1 + calibrationOffset), min audioDuration (p.2 + calibrationOffset))

/-- The cumulative-cursor walk of lines 1027–1041: translate target start/end
    positions on the concatenated speech timeline back to absolute times
    (`actual_start`/`actual_end` begin at `0.0`; the loop breaks once the end
    position is located). -/
def mapCursor : List Span → ℚ → ℚ → ℚ → ℚ → ℚ → ℚ × ℚ
  | [], _, _, _, aS, aE => (aS, aE)
  | (s, e) :: rest, tS, tE, cur, aS, aE =>
    let d := e - s
    let aS2 := if cur ≤ tS ∧ tS < cur + d then s + (tS - cur) else aS
    if cur < tE ∧ tE ≤ cur + d then (aS2, s + (tE - cur))
    else mapCursor rest tS tE (cur + d) aS2 aE

/-- The per-unit loop of lines 1011–1069: proportional time allocation by
    word count, cursor translation, the `actual_end == 0.0` fallback, and the
    second application of `CALIBRATION_OFFSET` (lines 1047–1049, where only
    the end time is clamped to `audio_duration` from above). -/
def silLoop (spans2 : List Span) (totalWords : Nat) (totalSpeech : ℚ) (nUnits : Nat)
    (m : Option (List (Nat × String))) (A : ℚ) : ℚ → List ScriptUnit → List Caption
  | _, [] => []
  | cum, u :: rest =>
    let prop : ℚ :=
      if totalWords > 0 then (u.word_count : ℚ) / (totalWords : ℚ) else 1 / (nUnits : ℚ)
    let dur := totalSpeech * prop
    let r := mapCursor spans2 cum (cum + dur) 0 0 0
    let aE1 := if r.2 = 0 then min ((spans2.getLastD (0, 0)).2) (r.1 + dur) else r.2
    let aS := max 0 (r.1 + calibrationOffset)
    let aE := min A (aE1 + calibrationOffset)
    mkCaption u aS aE m :: silLoop spans2 totalWords totalSpeech nUnits m A (cum + dur) rest

/-- The calibrated, count-adjusted span list (`audio_segments` after line
    1000). -/
def silSpans (units : List ScriptUnit) (spans : List Span) (A : ℚ) : List Span :=
  calibrateSpans A (adjustSpanCount units.length spans)

/-- The caption list built by the per-unit loop, before the final snap. -/
def silCaps (units : List ScriptUnit) (spans : List Span)
    (m : Option (List (Nat × String))) (A : ℚ) : List Caption :=
  silLoop (silSpans units spans A) ((units.map (fun u => u.word_count)).sum)
    (((silSpans units spans A).map (fun p => p.2 - p.1)).sum) units.length m A 0 units

/-- `_build_segments_from_audio_alignment_with_word_count`: count adjustment,
    span calibration, proportional mapping, and the final snap of the last
    end time to `audio_segments[-1][1]` (the last *calibrated* span end, not
    `audio_duration`). -/
def silenceBuild (units : List ScriptUnit) (spans : List Span)
    (m : Option (List (Nat × String))) (A : ℚ) : List Caption :=
  if ¬(silCaps units spans m A).isEmpty ∧ ¬(silSpans units spans A).isEmpty then
    setLastEnd (((silSpans units spans A).getLastD (0, 0)).2) (silCaps units spans m A)
  else silCaps units spans m A

/-! ## Silence detection, pure part (`_detect_audio_aligned_segments`,
    lines 710–770: deriving, filtering and merging speech spans from the
    silences parsed out of the tool's diagnostic output). -/

/-- Lines 710–735: speech spans from silence intervals.  The source's
    `if next_silence_start:` is a truthiness test, so a next start of `0.0`
    falls into the tail branch exactly as `None` does. -/
def speechFromSilences (silences : List Span) (A : ℚ) : List Span :=
  let first :=
    match silences.head? with
    | some (s0, _) => if s0 > 0 then [((0 : ℚ), s0)] else []
    | none => []
  let mids := (List.range silences.length).flatMap fun i =>
    let se := (silences.getD i (0, 0)).2
    if i + 1 < silences.length then
      let ns := (silences.getD (i + 1) (0, 0)).1
      if ns ≠ 0 then [(se, ns)] else if se < A then [(se, A)] else []
    else if se < A then [(se, A)] else []
  let segs := first ++ mids
  if segs.isEmpty then [((0 : ℚ), A)] else segs

/-- Lines 741–754: drop spans shorter than `min_detected_segment_duration`
    by merging them into the previous kept span (the accumulator is kept
    reversed so its head is the last kept span). -/
def filterShortAux : List Span → List Span → List Span
  | acc, [] => acc.reverse
  | acc, s :: rest =>
    if s.2 - s.1 ≥ 0.6 then filterShortAux (s :: acc) rest
    else
      match acc with
      | p :: acc2 => filterShortAux ((p.1, s.2) :: acc2) rest
      | [] => filterShortAux [s] rest

/-- Lines 758–770: repeatedly merge adjacent spans that are both shorter than
    `1.5` (fuel-based; each step either merges or fixes the head). -/
def mergeShortAux : Nat → List Span → List Span
  | 0, l => l
  | fuel + 1, a :: b :: rest =>
    if a.2 - a.1 < 1.5 ∧ b.2 - b.1 < 1.5 then mergeShortAux fuel ((a.1, b.2) :: rest)
    else a :: mergeShortAux fuel (b :: rest)
  | _ + 1, l => l

/-- The filtered, merged speech spans the detector would hand to the builder
    when their count already matches the unit count. -/
def detectedSpans (silences : List Span) (A : ℚ) : List Span :=
  mergeShortAux (2 * (filterShortAux [] (speechFromSilences silences A)).length)
    (filterShortAux [] (speechFromSilences silences A))

/-! ## Word-alignment builder
    (`_build_segments_from_faster_whisper_alignment`) -/

/-- `re.sub(r'Speaker\s+\d+:\s*', '', text)` — note: case-sensitive, and the
    colon follows the digits immediately.  `trySpeakerPat` attempts the
    pattern at the current position. -/
def dropExact : List Char → List Char → Option (List Char)
  | [], rest => some rest
  | _ :: _, [] => none
  | p :: ps, c :: cs => if c = p then dropExact ps cs else none

def trySpeakerPat (cs : List Char) : Option (List Char) :=
  match dropExact "Speaker".data cs with
  | none => none
  | some r1 =>
    if (r1.takeWhile Char.isWhitespace).isEmpty then none
    else
      let r2 := r1.dropWhile Char.isWhitespace
      if (r2.takeWhile Char.isDigit).isEmpty then none
      else
        match r2.dropWhile Char.isDigit with
        | c :: r3 => if c = Char.ofNat 58 then some (r3.dropWhile Char.isWhitespace) else none
        | [] => none

def subSpeakerAux : Nat → List Char → List Char
  | 0, cs => cs
  | _ + 1, [] => []
  | fuel + 1, c :: cs =>
    match trySpeakerPat (c :: cs) with
    | some rest => subSpeakerAux fuel rest
    | none => c :: subSpeakerAux fuel cs

def pySubSpeaker (s : String) : String := String.mk (subSpeakerAux s.data.length s.data)

/-- The quote/dash/ellipsis normalisation of lines 530–533 (curly quotes to
    straight, en/em dash to hyphen, ellipsis to three dots). -/
def normCharList (c : Char) : List Char :=
  if c = Char.ofNat 0x2019 ∨ c = Char.ofNat 0x2018 then [apos]
  else if c = Char.ofNat 0x201C ∨ c = Char.ofNat 0x201D then [Char.ofNat 34]
  else if c = Char.ofNat 0x2014 ∨ c = Char.ofNat 0x2013 then [Char.ofNat 45]
  else if c = Char.ofNat 0x2026 then [Char.ofNat 46, Char.ofNat 46, Char.ofNat 46]
  else [c]

def normalizeText (s : String) : String := String.mk (s.data.flatMap normCharList)

/-- `segment_words` (line 535): speaker labels removed, normalised, split on
    whitespace, punctuation-stripped and lowercased.  (`str.split()` never
    yields whitespace-only pieces, so the `if w.strip()` filter is vacuous.) -/
def whisperWords (t : String) : List String :=
  (pySplitWs (normalizeText (pySubSpeaker t))).map fun w => toLowerStr (stripPunctBoth w)

/-- `transcribed_words[j].strip().lower()`. -/
def wordTrimLower (s : String) : String := toLowerStr (pyStrip s)

/-- The persisted matcher variables of lines 542–545 (`segment_start`,
    `segment_end`, `matched_count`, `start_word_idx`); they survive across
    outer-loop iterations and are only partially reset on a first-word hit. -/
structure MatchState where
  segStart : Option ℚ
  segEnd : Option ℚ
  matched : Nat
  startIdx : Option Nat

/-- The inner matching loop of lines 564–578: consume transcribed words,
    counting matches (exact or apostrophe-stripped), breaking once matching
    has reached 70% and the next word diverges. -/
def innerScan (twords : List String) (timings : List WordTiming) (sw : List String) :
    Nat → Nat → Nat → Option ℚ → Nat × Option ℚ
  | 0, _, mc, e => (mc, e)
  | fuel + 1, j, mc, e =>
    let nt := wordTrimLower (twords.getD j "")
    if mc < sw.length then
      let expw := sw.getD mc ""
      if nt = expw then
        innerScan twords timings sw fuel (j + 1) (mc + 1) (some (timings.getD j wtDummy).finish)
      else if removeApos expw = removeApos nt then
        innerScan twords timings sw fuel (j + 1) (mc + 1) (some (timings.getD j wtDummy).finish)
      else if (mc : ℚ) ≥ (sw.length : ℚ) * 0.7 then (mc, e)
      else innerScan twords timings sw fuel (j + 1) mc e
    else innerScan twords timings sw fuel (j + 1) mc e

/-- The outer search loop of lines 553–591: scan forward for the unit's first
    word, run the inner loop, and break out (returning the new `word_idx`)
    when the 70% or 50% acceptance threshold is met. -/
def outerScan (twords : List String) (timings : List WordTiming) (sw : List String) :
    Nat → Nat → MatchState → MatchState × Option Nat
  | 0, _, st => (st, none)
  | fuel + 1, i, st =>
    let tw := wordTrimLower (twords.getD i "")
    if tw = sw.headD "" then
      let s0 := (timings.getD i wtDummy).start
      let maxLook := min (i + sw.length + 5) twords.length
      let r := innerScan twords timings sw (maxLook - (i + 1)) (i + 1) 1 st.segEnd
      if (r.1 : ℚ) ≥ (sw.length : ℚ) * 0.7 then
        (⟨some s0, r.2, r.1, some i⟩, some (i + r.1))
      else if (r.1 : ℚ) ≥ (sw.length : ℚ) * 0.5 then
        let e3 :=
          match r.2 with
          | some e => some e
          | none => some ((timings.getD (min (i + r.1) timings.length - 1) wtDummy).finish)
        (⟨some s0, e3, r.1, some i⟩, some (i + r.1))
      else outerScan twords timings sw fuel (i + 1) ⟨some s0, r.2, r.1, some i⟩
    else outerScan twords timings sw fuel (i + 1) st

/-- The per-unit loop of lines 522–644: units with empty text or an empty
    normalised word list are skipped (`continue`); otherwise the matcher runs
    over a ≤200-word window, falling back to proportional timing when no
    first-word match was found, and each produced segment is snapped behind
    the previous one. -/
def wLoop (units0 : List ScriptUnit) (A : ℚ) (m : Option (List (Nat × String)))
    (timings : List WordTiming) (twords : List String) :
    Nat → Nat → Option ℚ → List ScriptUnit → List Caption
  | _, _, _, [] => []
  | idx, wIdx, prevEnd, u :: rest =>
    if u.text = "" then wLoop units0 A m timings twords (idx + 1) wIdx prevEnd rest
    else
      let sw := whisperWords u.text
      if sw.isEmpty then wLoop units0 A m timings twords (idx + 1) wIdx prevEnd rest
      else
        let searchLimit := min (wIdx + 200) twords.length
        let r := outerScan twords timings sw (searchLimit - wIdx) wIdx ⟨none, none, 0, none⟩
        let tri : ℚ × Option ℚ × Nat :=
          match r.1.segStart with
          | some s => (s, r.1.segEnd, r.2.getD wIdx)
          | none =>
            let before := ((units0.take idx).map (fun x => x.word_count)).sum
            let total := (units0.map (fun x => x.word_count)).sum
            let s1 : ℚ := if total > 0 then ((before : ℚ) / (total : ℚ)) * A else 0
            let dur : ℚ := (u.word_count : ℚ) / (wordsPerMinute / 60)
            match prevEnd with
            | some pe =>
              if s1 < pe then (pe, some (pe + dur), wIdx) else (s1, some (s1 + dur), wIdx)
            | none => (s1, some (s1 + dur), wIdx)
        let start0 := tri.1
        let endv := tri.2.1.getD (start0 + 1)
        let se : ℚ × ℚ :=
          match prevEnd with
          | some pe =>
            if start0 < pe then (pe, if endv ≤ pe then pe + 1 else endv) else (start0, endv)
          | none => (start0, endv)
        ⟨se.1, se.2, u.text, u.speaker_id, resolveSpeaker m u.speaker_id, 1,
          u.word_count, u.text.length⟩ ::
          wLoop units0 A m timings twords (idx + 1) tri.2.2 (some se.2) rest

/-- `_build_segments_from_faster_whisper_alignment`: empty word-timing guard,
    the matching loop, and the final snap of the last end time to
    `audio_duration` when segments exist and `audio_duration > 0`. -/
def wBase (units : List ScriptUnit) (timings : List WordTiming)
    (m : Option (List (Nat × String))) (A : ℚ) : List Caption :=
  wLoop units A m timings (timings.map (fun w => w.word)) 0 0 none units

def whisperBuild (units : List ScriptUnit) (timings : List WordTiming)
    (m : Option (List (Nat × String))) (A : ℚ) : List Caption :=
  if timings.isEmpty then []
  else if ¬(wBase units timings m A).isEmpty ∧ A > 0 then
    setLastEnd A (wBase units timings m A)
  else wBase units timings m A

/-- The filter deciding which units the whisper builder keeps (the two
    `continue` guards of lines 523–538). -/
def wKeep (u : ScriptUnit) : Bool :=
  (decide (u.text ≠ "")) && (decide (whisperWords u.text ≠ []))

/-! ## Strategy dispatch (`_calculate_timing`) and the public entry point -/

/-- `_calculate_timing`: whisper alignment first (its result, when present,
    is returned as-is), then silence alignment (an empty detected-span list is
    falsy and falls through), then the heuristic.  The `Option` arguments sit
    at the subprocess/ASR boundary: `none` models every not-available outcome
    of the respective aligner. -/
def calcTiming (units : List ScriptUnit) (A : ℚ) (m : Option (List (Nat × String)))
    (wOpt : Option (List WordTiming)) (sOpt : Option (List Span)) : List Caption :=
  if units.isEmpty then []
  else
    match wOpt with
    | some ws => whisperBuild units ws m A
    | none =>
      match sOpt with
      | some spans =>
        if spans.isEmpty then heuristicTiming units A m else silenceBuild units spans m A
      | none => heuristicTiming units A m

/-- `generate_captions_from_script`: parse, bail out on an empty unit list,
    then compute timing. -/
def generateCaptions (script : String) (A : ℚ) (m : Option (List (Nat × String)))
    (wOpt : Option (List WordTiming)) (sOpt : Option (List Span)) : List Caption :=
  let units := parseScript script
  if units.isEmpty then [] else calcTiming units A m wOpt sOpt

/-! ## Post-processing (`split_long_segments`) -/

/-- The per-segment body of `split_long_segments`: segments within
    `max_duration` pass through; longer ones are cut into
    `max(1, int(duration / max_duration))` equal-duration pieces, the first
    pieces taking `num_words // num_segments` words and the last the rest. -/
def splitSegOne (maxDur : ℚ) (seg : Caption) : List Caption :=
  let duration := seg.end_time - seg.start_time
  if duration ≤ maxDur then [seg]
  else
    let words := pySplitWs seg.text
    let numWords := words.length
    let numSegments := (max 1 (pyInt (duration / maxDur))).toNat
    let wordsPer := numWords / numSegments
    let segDur := duration / (numSegments : ℚ)
    (List.range numSegments).map fun i =>
      let startW := i * wordsPer
      let endW := if i < numSegments - 1 then startW + wordsPer else numWords
      let t := joinSpace ((words.drop startW).take (endW - startW))
      let s := seg.start_time + (i : ℚ) * segDur
      ⟨s, s + segDur, t, seg.speaker_id, seg.speaker_name, seg.confidence,
        (pySplitWs t).length, t.length⟩

/-- `SimpleCaptionGenerator.split_long_segments`. -/
def splitLongSegments (segs : List Caption) (maxDur : ℚ) : List Caption :=
  match segs with
  | [] => []
  | s :: rest => splitSegOne maxDur s ++ splitLongSegments rest maxDur

/-! ## Concrete scripts and inputs used by the claims -/

/-- Scenario S2's packing input. -/
def s2Script : String :=
  "Speaker 1: One two three four five six seven eight nine ten. Eleven twelve thirteen fourteen fifteen sixteen."

/-- Scenario S1's heuristic input. -/
def s1Script : String := "Speaker 1: Hello there.\nSpeaker 2: Hi back!"

def oneUnitScript : String := "Speaker 1: Hello there friend."

def twoUnitScript : String := "Speaker 1: Hello there friend.\nSpeaker 2: Good bye now."

def c7Script : String := "Speaker 1: alpha beta gamma delta"

/-- The SRT scenario segment `(0.0, 2.5, "Alice", "Hi")`. -/
def aliceSeg : Caption := ⟨0, 5 / 2, "Hi", 1, "Alice", 1, 1, 2⟩

/-- A short segment (duration 5 ≤ 8) for the split-long-segments claim. -/
def segShort : Caption := ⟨0, 5, "hello there", 1, "Speaker 1", 1, 2, 11⟩

/-- A long segment (duration 33 > 8, seven words) for the split-long-segments
    claim. -/
def segLong : Caption := ⟨0, 33, "one two three four five six seven", 1, "Speaker 1", 1, 7, 33⟩

/-- The ordering relation of the cross-segment invariant. -/
def capOrdered (a b : Caption) : Prop := a.end_time ≤ b.start_time

/-! ## Helper lemmas: sentence packing and the parser -/

/-- The packing fold distributes sentences into chunks without dropping,
    duplicating or splitting any sentence: flattening the chunks returns the
    original sentence list (prefixed by the running chunk). -/
theorem chunkAux_flatten :
    ∀ (sentences cur : List String) (cnt : Nat),
      (chunkAux cur cnt sentences).flatten = cur ++ sentences := by
  intro sentences
  induction sentences with
  | nil =>
    intro cur cnt
    by_cases h : cur.isEmpty
    · simp [chunkAux, h, List.isEmpty_iff.mp h]
    · simp [chunkAux, h]
  | cons s rest IH =>
    intro cur cnt
    by_cases h : cnt + wordCount s > maxWords ∧ ¬cur.isEmpty
    · simp only [chunkAux, if_pos h, List.flatten_cons, IH [s] (wordCount s)]
      simp
    · simp only [chunkAux, if_neg h, IH (cur ++ [s]) (cnt + wordCount s)]
      simp

/-- Every unit emitted by `_split_long_segment` carries the speaker id it was
    called with. -/
theorem splitLongSegment_speaker (n : Nat) (t : String) :
    ∀ u ∈ splitLongSegment n t, u.speaker_id = n := by
  intro u hu
  obtain ⟨ch, -, rfl⟩ := List.mem_map.mp hu
  rfl

/-- A line matched by the speaker regex is non-empty. -/
theorem matchSpeakerLine_ne_empty {s : String} {p : Nat × String}
    (h : matchSpeakerLine s = some p) : s ≠ "" := by
  intro he
  rw [he] at h
  have hnone : matchSpeakerLine "" = none := by decide
  rw [hnone] at h
  cases h

/-- Under a current speaker `n`, a run of non-empty lines that do not match
    the speaker pattern parses to the concatenation of their unit lists, each
    with speaker `n`. -/
theorem parseLines_bare (n : Nat) :
    ∀ (bare : List String),
      (∀ l ∈ bare, pyStrip l ≠ "" ∧ matchSpeakerLine (pyStrip l) = none) →
      parseLines (some n) bare = bare.flatMap (fun l => splitLongSegment n (pyStrip l)) := by
  intro bare
  induction bare with
  | nil => intro _; rfl
  | cons l ls IH =>
    intro h
    obtain ⟨h1, h2⟩ := h l (List.mem_cons_self l ls)
    simp only [parseLines, if_neg h1, h2, List.flatMap_cons]
    rw [IH (fun x hx => h x (List.mem_cons_of_mem l hx))]

/-! ## C4 — sentence packing -/

/-- C4: the parser packs sentences left-to-right into units.  Part 1 states
    the flush rule literally: a sentence whose word count would push the
    running bucket past `max_words = 15` flushes the bucket and starts a new
    bucket with that sentence.  Part 2: no sentence is ever split across
    units (flattening the chunks reproduces the sentence list).  Part 3: the
    10-word + 6-word example line yields exactly two units, each one intact
    sentence. -/
theorem c4_packing :
    (∀ (cur : List String) (cnt : Nat) (s : String) (rest : List String),
      cnt + wordCount s > maxWords → cur ≠ [] →
      chunkAux cur cnt (s :: rest) = cur :: chunkAux [s] (wordCount s) rest) ∧
    (∀ sentences : List String, (chunkSentences sentences).flatten = sentences) ∧
    parseScript s2Script =
      [mkUnit 1 ["One two three four five six seven eight nine ten."],
       mkUnit 1 ["Eleven twelve thirteen fourteen fifteen sixteen."]] := by
  refine ⟨?_, ?_, by decide⟩
  · intro cur cnt s rest hgt hne
    have hcur : ¬cur.isEmpty := by simpa [List.isEmpty_iff] using hne
    simp only [chunkAux, if_pos (And.intro hgt hcur)]
  · intro sentences
    simpa using chunkAux_flatten sentences [] 0

/-! ## C5 — SRT formatting of the single Alice segment -/

/-- C5 counterexample: for the single segment `(0.0, 2.5, "Alice", "Hi")` the
    claimed prefix ending in a blank line (`"…Hi\n\n"`) is *not* a prefix of
    the SRT output — `'\n'.join` materialises the separator newline only when
    another segment follows, so the single-segment output ends after one
    newline. -/
theorem c5_counterexample :
    ("1\n00:00:00,000 --> 00:00:02,500\n[Alice] Hi\n\n").data.isPrefixOf
      (formatSrt [aliceSeg]).data = false := by decide

/-- C5 (amended): the SRT output for the single segment
    `(0.0, 2.5, "Alice", "Hi")` is exactly
    `"1\n00:00:00,000 --> 00:00:02,500\n[Alice] Hi\n"` (1-based index,
    `HH:MM:SS,mmm` timestamps with a comma millisecond separator, bracketed
    speaker, one trailing newline); the blank separator line yields the
    `"…Hi\n\n"` form only when a further segment follows. -/
theorem c5_amended :
    formatSrt [aliceSeg] = "1\n00:00:00,000 --> 00:00:02,500\n[Alice] Hi\n" ∧
    ("1\n00:00:00,000 --> 00:00:02,500\n[Alice] Hi\n\n2\n").data.isPrefixOf
      (formatSrt [aliceSeg, ⟨5 / 2, 3, "Yo", 2, "Bob", 1, 1, 2⟩]).data = true := by decide

/-! ## C7 — pre-scale duration bounds in the heuristic estimator -/

/-- Every pre-scale base duration is at least `min_segment_duration` (the
    `max(self.min_segment_duration, base_duration)` of line 344). -/
theorem bases_ge_min (units : List ScriptUnit) (A : ℚ) :
    ∀ d ∈ baseSegmentDurations units A, minSegmentDuration ≤ d := by
  intro d hd
  simp only [baseSegmentDurations] at hd
  obtain ⟨p, -, rfl⟩ := List.mem_map.mp hd
  exact le_max_left _ _

/-- C7 (amended): every per-unit base duration computed before the final
    scaling step satisfies the lower bound
    `duration ≥ min_segment_duration = 1.0`; the source never applies the
    `max_segment_duration = 60` ceiling. -/
theorem c7_amended (units : List ScriptUnit) (A : ℚ) :
    ∀ d ∈ baseSegmentDurations units A, minSegmentDuration ≤ d :=
  bases_ge_min units A

/-- C7 witness: the lower bound at a concrete input. -/
theorem c7_witness :
    (100 : ℚ) ∈ baseSegmentDurations (parseScript c7Script) 100 ∧
    minSegmentDuration ≤ (100 : ℚ) :=
  ⟨by decide, c7_amended (parseScript c7Script) 100 100 (by decide)⟩

/-- C7 counterexample: a single 4-word unit at `audio_duration = 100` gets a
    pre-scale base duration of `100 > max_segment_duration = 60`; the upper
    bound of the claim is not enforced. -/
theorem c7_counterexample :
    baseSegmentDurations (parseScript c7Script) 100 = [100] ∧
    maxSegmentDuration < 100 := by decide

/-! ## Helper lemmas: the final end-time snap -/

theorem setLastEnd_length (a : ℚ) : ∀ l : List Caption, (setLastEnd a l).length = l.length := by
  intro l
  induction l with
  | nil => rfl
  | cons c rest IH =>
    cases rest with
    | nil => rfl
    | cons d rest2 =>
      simp only [setLastEnd, List.length_cons]
      rw [IH]
      rfl

theorem setLastEnd_getLastD (a : ℚ) :
    ∀ (l : List Caption) (c0 : Caption), l ≠ [] →
      ((setLastEnd a l).getLastD c0).end_time = a := by
  intro l
  induction l with
  | nil => intro c0 h; exact absurd rfl h
  | cons c rest IH =>
    intro c0 _
    cases rest with
    | nil => rfl
    | cons d rest2 =>
      rw [show setLastEnd a (c :: d :: rest2) = c :: setLastEnd a (d :: rest2) from rfl,
        List.getLastD_cons]
      exact IH c (by simp)

theorem setLastEnd_bounds (A : ℚ) :
    ∀ l : List Caption,
      (∀ s ∈ l, 0 ≤ s.start_time ∧ s.start_time ≤ s.end_time ∧ s.end_time ≤ A) →
      ∀ s ∈ setLastEnd A l, 0 ≤ s.start_time ∧ s.start_time ≤ s.end_time ∧ s.end_time ≤ A := by
  intro l
  induction l with
  | nil => intro _ s hs; simp [setLastEnd] at hs
  | cons c rest IH =>
    intro h s hs
    cases rest with
    | nil =>
      simp only [setLastEnd, List.mem_singleton] at hs
      subst hs
      obtain ⟨h1, h2, h3⟩ := h c (by simp)
      exact ⟨h1, le_trans h2 h3, le_refl A⟩
    | cons d rest2 =>
      rw [show setLastEnd A (c :: d :: rest2) = c :: setLastEnd A (d :: rest2) from rfl] at hs
      rcases List.mem_cons.mp hs with rfl | hs2
      · exact h s (by simp)
      · exact IH (fun x hx => h x (List.mem_cons_of_mem _ hx)) s hs2

theorem setLastEnd_chain (A : ℚ) :
    ∀ l : List Caption, List.Chain' capOrdered l → List.Chain' capOrdered (setLastEnd A l) := by
  intro l
  induction l with
  | nil => intro _; simp [setLastEnd]
  | cons c rest IH =>
    intro h
    cases rest with
    | nil => simp [setLastEnd]
    | cons d rest2 =>
      rw [show setLastEnd A (c :: d :: rest2) = c :: setLastEnd A (d :: rest2) from rfl]
      rw [List.chain'_cons'] at h ⊢
      obtain ⟨hrel, htail⟩ := h
      refine ⟨?_, IH htail⟩
      intro y hy
      have hcd : capOrdered c d := hrel d (by simp)
      cases rest2 with
      | nil =>
        simp only [setLastEnd, List.head?_cons, Option.mem_def, Option.some.injEq] at hy
        subst hy
        exact hcd
      | cons e rest3 =>
        rw [show setLastEnd A (d :: e :: rest3) = d :: setLastEnd A (e :: rest3) from rfl] at hy
        simp only [List.head?_cons, Option.mem_def, Option.some.injEq] at hy
        subst hy
        exact hcd

/-! ## Helper lemmas: the heuristic emission loop -/

theorem clampEnd_ge {A t d : ℚ} (hd : 0 < d) (htA : t ≤ A) : t ≤ clampEnd A t d := by
  unfold clampEnd
  split
  · exact htA
  · linarith

theorem clampEnd_le {A t d : ℚ} : clampEnd A t d ≤ A := by
  unfold clampEnd
  split
  · exact le_refl A
  · next h => exact le_of_not_lt h

theorem clampPause_nonneg {A e p : ℚ} (hp : 0 ≤ p) : 0 ≤ clampPause A e p := by
  unfold clampPause
  split
  · exact le_max_left 0 _
  · exact hp

theorem clampPause_add_le {A e p : ℚ} (he : e ≤ A) :
    e + clampPause A e p ≤ A := by
  unfold clampPause
  split
  · have h0 : (0 : ℚ) ≤ A - e := by linarith
    rw [max_eq_right h0]
    linarith
  · next h =>
    have := le_of_not_lt h
    linarith

theorem hGo_length (A : ℚ) (m : Option (List (Nat × String))) :
    ∀ (l : List (ScriptUnit × ℚ)) (ps : List ℚ) (t : ℚ),
      (hGo A m t l ps).length = l.length := by
  intro l
  induction l with
  | nil => intro ps t; rfl
  | cons x rest IH =>
    intro ps t
    obtain ⟨u, d⟩ := x
    cases rest with
    | nil => rfl
    | cons y rest2 =>
      simp only [hGo, List.length_cons]
      rw [IH]
      rfl

theorem hGo_last_end (A : ℚ) (m : Option (List (Nat × String))) :
    ∀ (l : List (ScriptUnit × ℚ)) (ps : List ℚ) (t : ℚ) (c0 : Caption), l ≠ [] →
      ((hGo A m t l ps).getLastD c0).end_time = A := by
  intro l
  induction l with
  | nil => intro ps t c0 h; exact absurd rfl h
  | cons x rest IH =>
    intro ps t c0 _
    obtain ⟨u, d⟩ := x
    cases rest with
    | nil => rfl
    | cons y rest2 =>
      rw [show hGo A m t ((u, d) :: y :: rest2) ps =
            mkCaption u t (clampEnd A t d) m ::
              hGo A m (clampEnd A t d + clampPause A (clampEnd A t d) (ps.headD 0))
                (y :: rest2) ps.tail from rfl,
        List.getLastD_cons]
      exact IH ps.tail _ _ (by simp)

/-- The per-request invariant of the heuristic emission loop: starting a
    non-negative cursor below `audio_duration`, with positive durations and
    non-negative pauses, every emitted segment sits inside
    `[cursor, audio_duration]` with ordered endpoints, and consecutive
    segments do not overlap. -/
theorem hGo_inv (A : ℚ) (m : Option (List (Nat × String))) :
    ∀ (l : List (ScriptUnit × ℚ)) (ps : List ℚ) (t : ℚ),
      0 ≤ t → t ≤ A → (∀ x ∈ l, 0 < x.2) → (∀ p ∈ ps, 0 ≤ p) →
      (∀ s ∈ hGo A m t l ps,
        t ≤ s.start_time ∧ s.start_time ≤ s.end_time ∧ s.end_time ≤ A) ∧
      List.Chain' capOrdered (hGo A m t l ps) := by
  intro l
  induction l with
  | nil =>
    intro ps t _ _ _ _
    exact ⟨fun s hs => absurd hs (by simp [hGo]), by simp [hGo]⟩
  | cons x rest IH =>
    intro ps t ht0 htA hd hp
    obtain ⟨u, d⟩ := x
    cases rest with
    | nil =>
      constructor
      · intro s hs
        simp only [hGo, List.mem_singleton] at hs
        subst hs
        exact ⟨le_refl _, htA, le_refl _⟩
      · simp [hGo]
    | cons y rest2 =>
      have hd0 : 0 < d := hd (u, d) (by simp)
      have hp0 : 0 ≤ ps.headD 0 := by
        cases ps with
        | nil => simp
        | cons q qs => exact hp q (by simp)
      have hte : t ≤ clampEnd A t d := clampEnd_ge hd0 htA
      have heA : clampEnd A t d ≤ A := clampEnd_le
      have hp20 : 0 ≤ clampPause A (clampEnd A t d) (ps.headD 0) := clampPause_nonneg hp0
      have hep2 : clampEnd A t d + clampPause A (clampEnd A t d) (ps.headD 0) ≤ A :=
        clampPause_add_le heA
      have ht'0 : 0 ≤ clampEnd A t d + clampPause A (clampEnd A t d) (ps.headD 0) := by
        linarith
      obtain ⟨IH1, IH2⟩ := IH ps.tail _ ht'0 hep2
        (fun z hz => hd z (List.mem_cons_of_mem _ hz))
        (fun q hq => hp q (List.mem_of_mem_tail hq))
      have hstep : hGo A m t ((u, d) :: y :: rest2) ps =
          mkCaption u t (clampEnd A t d) m ::
            hGo A m (clampEnd A t d + clampPause A (clampEnd A t d) (ps.headD 0))
              (y :: rest2) ps.tail := rfl
      constructor
      · intro s hs
        rw [hstep] at hs
        rcases List.mem_cons.mp hs with rfl | hs2
        · exact ⟨le_refl _, hte, heA⟩
        · obtain ⟨ha, hb, hc⟩ := IH1 s hs2
          exact ⟨le_trans (le_trans hte (le_add_of_nonneg_right hp20)) ha, hb, hc⟩
      · rw [hstep, List.chain'_cons']
        refine ⟨?_, IH2⟩
        intro z hz
        have hzmem := List.mem_of_mem_head? hz
        have hzs := (IH1 z hzmem).1
        show (mkCaption u t (clampEnd A t d) m).end_time ≤ z.start_time
        calc (mkCaption u t (clampEnd A t d) m).end_time
            = clampEnd A t d := rfl
          _ ≤ clampEnd A t d + clampPause A (clampEnd A t d) (ps.headD 0) :=
              le_add_of_nonneg_right hp20
          _ ≤ z.start_time := hzs

/-! ## Helper lemmas: positivity of the heuristic durations and pauses -/

theorem pauses_pos (units : List ScriptUnit) : ∀ p ∈ pauseDurations units, 0 < p := by
  intro p hp
  simp only [pauseDurations] at hp
  obtain ⟨i, hi, rfl⟩ := List.mem_map.mp hp
  have hbase : (0 : ℚ) <
      if (units.getD (i + 1) ⟨0, "", 0, 0⟩).speaker_id ≠
          (units.getD i ⟨0, "", 0, 0⟩).speaker_id then
        pauseBetweenSpeakers else pauseBetweenSegments := by
    split <;> norm_num [pauseBetweenSpeakers, pauseBetweenSegments]
  split
  · next hge =>
    refine mul_pos hbase ?_
    have hnum : (0 : ℚ) ≤ (i : ℚ) - (units.length : ℚ) * 0.5 := by linarith
    have hden : (0 : ℚ) ≤ (units.length : ℚ) * 0.5 := by positivity
    have hdiv := div_nonneg hnum hden
    have hmul : (0 : ℚ) ≤ ((i : ℚ) - (units.length : ℚ) * 0.5) /
        ((units.length : ℚ) * 0.5) * 0.5 := by
      apply mul_nonneg hdiv
      norm_num
    linarith
  · exact hbase

theorem heuristicScale_pos (units : List ScriptUnit) (A : ℚ) (hA : 0 < A) :
    0 < heuristicScale units A := by
  unfold heuristicScale
  split
  · next h => exact div_pos hA h.1
  · norm_num

theorem adjusted_pos (units : List ScriptUnit) (A : ℚ) (hA : 0 < A) :
    ∀ d ∈ adjustedSegmentDurations units A, 0 < d := by
  intro d hd
  simp only [adjustedSegmentDurations] at hd
  obtain ⟨b, hb, rfl⟩ := List.mem_map.mp hd
  have h1 : minSegmentDuration ≤ b := bases_ge_min units A b hb
  have h2 : (0 : ℚ) < b := lt_of_lt_of_le (by norm_num [minSegmentDuration]) h1
  exact mul_pos h2 (heuristicScale_pos units A hA)

theorem scaledPauses_nonneg (units : List ScriptUnit) (A : ℚ) (hA : 0 < A) :
    ∀ p ∈ scaledPauseDurations units A, 0 ≤ p := by
  intro p hp
  simp only [scaledPauseDurations] at hp
  obtain ⟨q, hq, rfl⟩ := List.mem_map.mp hp
  exact le_of_lt (mul_pos (pauses_pos units q hq) (heuristicScale_pos units A hA))

/-! ## Helper lemmas: segment counts of the three builders -/

theorem adjusted_length (units : List ScriptUnit) (A : ℚ) :
    (adjustedSegmentDurations units A).length = units.length := by
  simp [adjustedSegmentDurations, baseSegmentDurations]

theorem heuristicTiming_length (units : List ScriptUnit) (A : ℚ)
    (m : Option (List (Nat × String))) :
    (heuristicTiming units A m).length = units.length := by
  unfold heuristicTiming
  rw [setLastEnd_length, hGo_length, List.length_zip, adjusted_length, min_self]

theorem silLoop_length (spans2 : List Span) (tw : Nat) (ts : ℚ) (n : Nat)
    (m : Option (List (Nat × String))) (A : ℚ) :
    ∀ (l : List ScriptUnit) (cum : ℚ), (silLoop spans2 tw ts n m A cum l).length = l.length := by
  intro l
  induction l with
  | nil => intro cum; rfl
  | cons u rest IH =>
    intro cum
    simp only [silLoop, List.length_cons]
    rw [IH]

theorem silCaps_length (units : List ScriptUnit) (spans : List Span)
    (m : Option (List (Nat × String))) (A : ℚ) :
    (silCaps units spans m A).length = units.length := by
  unfold silCaps
  rw [silLoop_length]

theorem silenceBuild_length (units : List ScriptUnit) (spans : List Span)
    (m : Option (List (Nat × String))) (A : ℚ) :
    (silenceBuild units spans m A).length = units.length := by
  unfold silenceBuild
  split
  · rw [setLastEnd_length, silCaps_length]
  · rw [silCaps_length]

theorem wLoop_length (units0 : List ScriptUnit) (A : ℚ) (m : Option (List (Nat × String)))
    (ts : List WordTiming) (tw : List String) :
    ∀ (l : List ScriptUnit) (idx wIdx : Nat) (prevEnd : Option ℚ),
      (wLoop units0 A m ts tw idx wIdx prevEnd l).length = (l.filter wKeep).length := by
  intro l
  induction l with
  | nil => intro idx wIdx prev; rfl
  | cons u rest IH =>
    intro idx wIdx prev
    by_cases h1 : u.text = ""
    · have hk : wKeep u = false := by simp [wKeep, h1]
      simp only [wLoop, if_pos h1, List.filter_cons, hk, Bool.false_eq_true, if_false]
      exact IH _ _ _
    · by_cases h2 : (whisperWords u.text).isEmpty = true
      · have hk : wKeep u = false := by
          simp [wKeep, h1, List.isEmpty_iff.mp h2]
        simp only [wLoop, if_neg h1, if_pos h2, List.filter_cons, hk, Bool.false_eq_true,
          if_false]
        exact IH _ _ _
      · have hww : whisperWords u.text ≠ [] := by
          simpa [List.isEmpty_iff] using h2
        have hk : wKeep u = true := by simp [wKeep, h1, hww]
        simp only [wLoop, if_neg h1, if_neg h2, List.filter_cons, hk, if_true,
          List.length_cons]
        rw [IH]

theorem wBase_length (units : List ScriptUnit) (ts : List WordTiming)
    (m : Option (List (Nat × String))) (A : ℚ) :
    (wBase units ts m A).length = (units.filter wKeep).length := by
  unfold wBase
  rw [wLoop_length]

theorem whisperBuild_length (units : List ScriptUnit) (ts : List WordTiming)
    (m : Option (List (Nat × String))) (A : ℚ) (h : ts ≠ []) :
    (whisperBuild units ts m A).length = (units.filter wKeep).length := by
  unfold whisperBuild
  rw [if_neg (by simpa [List.isEmpty_iff] using h)]
  split
  · rw [setLastEnd_length, wBase_length]
  · rw [wBase_length]

/-! ## Helper lemmas: non-emptiness of the silence builder inputs -/

theorem padSpansAux_ne_nil : ∀ (k : Nat) (l : List Span), l ≠ [] → padSpansAux k l ≠ [] := by
  intro k
  induction k with
  | zero => intro l h; exact h
  | succ k IH => intro l _; exact IH _ (by simp)

theorem adjustSpanCount_ne_nil (n : Nat) (l : List Span) (hn : n ≠ 0) (hl : l ≠ []) :
    adjustSpanCount n l ≠ [] := by
  unfold adjustSpanCount
  split
  · intro he
    rcases List.take_eq_nil_iff.mp he with h | h
    · exact hn h
    · exact hl h
  · exact padSpansAux_ne_nil _ _ hl

theorem silCaps_ne_nil (units : List ScriptUnit) (spans : List Span)
    (m : Option (List (Nat × String))) (A : ℚ) (hu : units ≠ []) :
    silCaps units spans m A ≠ [] := by
  intro he
  have hlen := silCaps_length units spans m A
  rw [he] at hlen
  exact hu (List.length_eq_zero.mp hlen.symm)

theorem silSpans_ne_nil (units : List ScriptUnit) (spans : List Span) (A : ℚ)
    (hu : units ≠ []) (hs : spans ≠ []) : silSpans units spans A ≠ [] := by
  unfold silSpans calibrateSpans
  rw [ne_eq, List.map_eq_nil_iff]
  exact adjustSpanCount_ne_nil _ _ (by simpa using hu) hs

/-! ## C1 — the final segment's end time -/

/-- C1 (amended): the heuristic strategy and the word-alignment strategy snap
    the final segment's `end_time` to `audio_duration` exactly (the latter
    whenever it produced segments and `audio_duration > 0`); the
    silence-alignment strategy instead snaps it to the end of the last
    *calibrated* speech span, `min(audio_duration, raw_end + 3.0)`, which can
    fall short of `audio_duration`. -/
theorem c1_amended :
    (∀ (units : List ScriptUnit) (A : ℚ) (m : Option (List (Nat × String))) (c0 : Caption),
      units ≠ [] → ((heuristicTiming units A m).getLastD c0).end_time = A) ∧
    (∀ (units : List ScriptUnit) (ts : List WordTiming) (m : Option (List (Nat × String)))
        (A : ℚ) (c0 : Caption), 0 < A → whisperBuild units ts m A ≠ [] →
      ((whisperBuild units ts m A).getLastD c0).end_time = A) ∧
    (∀ (units : List ScriptUnit) (spans : List Span) (m : Option (List (Nat × String)))
        (A : ℚ) (c0 : Caption), units ≠ [] → spans ≠ [] →
      ((silenceBuild units spans m A).getLastD c0).end_time =
        ((silSpans units spans A).getLastD ((0 : ℚ), (0 : ℚ))).2) := by
  refine ⟨?_, ?_, ?_⟩
  · intro units A m c0 h
    unfold heuristicTiming
    apply setLastEnd_getLastD
    have hlen : (hGo A m 0 (units.zip (adjustedSegmentDurations units A))
        (scaledPauseDurations units A)).length = units.length := by
      rw [hGo_length, List.length_zip, adjusted_length, min_self]
    intro he
    rw [he] at hlen
    exact h (List.length_eq_zero.mp hlen.symm)
  · intro units ts m A c0 hA hne
    unfold whisperBuild at hne ⊢
    by_cases hts : ts.isEmpty
    · rw [if_pos hts] at hne
      exact absurd rfl hne
    · rw [if_neg hts] at hne ⊢
      by_cases hb : ¬(wBase units ts m A).isEmpty ∧ A > 0
      · rw [if_pos hb]
        apply setLastEnd_getLastD
        simpa [List.isEmpty_iff] using hb.1
      · rw [if_neg hb] at hne
        exact absurd ⟨by simpa [List.isEmpty_iff] using hne, hA⟩ hb
  · intro units spans m A c0 hu hs
    have hcaps := silCaps_ne_nil units spans m A hu
    have hspans2 := silSpans_ne_nil units spans A hu hs
    unfold silenceBuild
    rw [if_pos ⟨by simpa [List.isEmpty_iff] using hcaps,
      by simpa [List.isEmpty_iff] using hspans2⟩]
    exact setLastEnd_getLastD _ _ c0 hcaps

/-- C1 witness: the three clauses at concrete inputs. -/
theorem c1_witness :
    ((heuristicTiming (parseScript oneUnitScript) 7 none).getLastD dummyCap).end_time = 7 ∧
    ((whisperBuild (parseScript oneUnitScript) [⟨"hi", 0, 1⟩] none 4).getLastD
      dummyCap).end_time = 4 ∧
    ((silenceBuild (parseScript oneUnitScript) [(0, 2)] none 9).getLastD dummyCap).end_time =
      ((silSpans (parseScript oneUnitScript) [(0, 2)] 9).getLastD ((0 : ℚ), (0 : ℚ))).2 :=
  ⟨c1_amended.1 (parseScript oneUnitScript) 7 none dummyCap (by decide),
   c1_amended.2.1 (parseScript oneUnitScript) [⟨"hi", 0, 1⟩] none 4 dummyCap (by norm_num)
     (by decide),
   c1_amended.2.2 (parseScript oneUnitScript) [(0, 2)] none 9 dummyCap (by decide) (by decide)⟩

/-- C1 counterexample: with detected silences `[(5, 10)]` at
    `audio_duration = 10` the detector yields the speech span `(0, 5)`, and
    the silence strategy's final segment ends at `8 ≠ 10` (the last calibrated
    span end `min(10, 5 + 3)`), refuting exact final-snap equality on the
    silence-alignment strategy. -/
theorem c1_counterexample :
    detectedSpans [(5, 10)] 10 = [(0, 5)] ∧
    ((generateCaptions oneUnitScript 10 none none (some [(0, 5)])).getLastD
      dummyCap).end_time = 8 ∧
    (8 : ℚ) ≠ 10 := by decide

/-! ## C2 — ordered, bounded, non-overlapping segments -/

/-- C2 (amended): the heuristic strategy's output satisfies the full interval
    invariant: every segment has `0 ≤ start_time ≤ end_time ≤ audio_duration`
    and adjacent segments satisfy `a.end_time ≤ b.start_time`.  (The
    silence-alignment builder violates the claim; see the counterexample.) -/
theorem c2_amended (units : List ScriptUnit) (A : ℚ) (m : Option (List (Nat × String)))
    (hA : 0 < A) :
    (∀ s ∈ heuristicTiming units A m,
      0 ≤ s.start_time ∧ s.start_time ≤ s.end_time ∧ s.end_time ≤ A) ∧
    List.Chain' capOrdered (heuristicTiming units A m) := by
  have hzip : ∀ x ∈ units.zip (adjustedSegmentDurations units A), 0 < x.2 := fun x hx =>
    adjusted_pos units A hA x.2 (List.of_mem_zip hx).2
  have hps := scaledPauses_nonneg units A hA
  obtain ⟨h1, h2⟩ := hGo_inv A m (units.zip (adjustedSegmentDurations units A))
    (scaledPauseDurations units A) 0 le_rfl (le_of_lt hA) hzip hps
  unfold heuristicTiming
  exact ⟨setLastEnd_bounds A _ h1, setLastEnd_chain A _ h2⟩

/-- C2 witness: the invariant at scenario S1's script and duration. -/
theorem c2_witness :
    (0 : ℚ) < 6 ∧ List.Chain' capOrdered (heuristicTiming (parseScript s1Script) 6 none) :=
  ⟨by norm_num, (c2_amended (parseScript s1Script) 6 none (by norm_num)).2⟩

/-- C2 counterexample: detected silences `[(4, 5)]` at `audio_duration = 5`
    yield the speech span `(0, 4)`; the silence builder then emits a segment
    with `start_time = 6 > end_time = 5` (the start receives the calibration
    offset twice and is never clamped from above), refuting
    `start_time ≤ end_time ≤ audio_duration`. -/
theorem c2_counterexample :
    detectedSpans [(4, 5)] 5 = [(0, 4)] ∧
    ((generateCaptions oneUnitScript 5 none none (some [(0, 4)])).headD
      dummyCap).start_time = 6 ∧
    ((generateCaptions oneUnitScript 5 none none (some [(0, 4)])).headD
      dummyCap).end_time = 5 ∧
    ¬((generateCaptions oneUnitScript 5 none none (some [(0, 4)])).headD
        dummyCap).start_time ≤
      ((generateCaptions oneUnitScript 5 none none (some [(0, 4)])).headD
        dummyCap).end_time := by decide

/-! ## C3 — one segment per parsed unit -/

/-- C3 (amended): the heuristic and silence-alignment strategies emit exactly
    one segment per parsed unit; the word-alignment strategy skips units whose
    cleaned word list is empty (text that is blank or reduces to a bare
    speaker label), so its count equals the number of units passing that
    filter. -/
theorem c3_amended :
    (∀ (units : List ScriptUnit) (A : ℚ) (m : Option (List (Nat × String))),
      (heuristicTiming units A m).length = units.length) ∧
    (∀ (units : List ScriptUnit) (spans : List Span) (m : Option (List (Nat × String)))
        (A : ℚ), (silenceBuild units spans m A).length = units.length) ∧
    (∀ (units : List ScriptUnit) (ts : List WordTiming) (m : Option (List (Nat × String)))
        (A : ℚ), ts ≠ [] →
      (whisperBuild units ts m A).length = (units.filter wKeep).length) :=
  ⟨heuristicTiming_length, silenceBuild_length, fun units ts m A h =>
    whisperBuild_length units ts m A h⟩

/-- C3 witness: the heuristic count and the whisper filter count at concrete
    inputs. -/
theorem c3_witness :
    (heuristicTiming (parseScript s1Script) 6 none).length = (parseScript s1Script).length ∧
    (whisperBuild (parseScript oneUnitScript) [⟨"hi", 0, 1⟩] none 4).length =
      ((parseScript oneUnitScript).filter wKeep).length :=
  ⟨c3_amended.1 (parseScript s1Script) 6 none,
   c3_amended.2.2 (parseScript oneUnitScript) [⟨"hi", 0, 1⟩] none 4 (by decide)⟩

/-- C3 counterexample: the script `"Speaker 1: Speaker 2:"` parses to one
    unit (text `"Speaker 2:"`), but the word-alignment strategy drops it (its
    cleaned word list is empty after the speaker-label `re.sub`), producing 0
    segments for 1 unit. -/
theorem c3_counterexample :
    (generateCaptions "Speaker 1: Speaker 2:" 10 none (some [⟨"hello", 0, 1⟩]) none).length
      = 0 ∧
    (parseScript "Speaker 1: Speaker 2:").length = 1 := by decide

/-! ## C6 — the silence-path calibration offset -/

/-- C6: with detected speech spans `(0, 3)` and `(3.5, 6.5)`, two equal-word
    units and `audio_duration = 10`, the builder produces segment 1 =
    `[6, 9]` (not `[3, ~6]`) and snaps the final end to `9.5` (not `10`): the
    `+3.0` calibration offset is applied twice — once to the span boundaries
    (lines 994–1000) and once more to each final start/end (lines 1047–1049) —
    and the final snap uses the last calibrated span end. -/
theorem c6_double_calibration :
    (silenceBuild (parseScript twoUnitScript) [(0, 3), (7 / 2, 13 / 2)] none 10).map
        (fun c => (c.start_time, c.end_time)) = [(6, 9), (19 / 2, 19 / 2)] ∧
    ((silenceBuild (parseScript twoUnitScript) [(0, 3), (7 / 2, 13 / 2)] none 10).getLastD
      dummyCap).end_time ≠ 10 := by decide

/-! ## C8 — split-long-segments -/

theorem splitLongSegments_eq (maxDur : ℚ) :
    ∀ segs : List Caption, splitLongSegments segs maxDur = segs.flatMap (splitSegOne maxDur) := by
  intro segs
  induction segs with
  | nil => rfl
  | cons s rest IH => simp only [splitLongSegments, List.flatMap_cons, IH]

/-- C8 (amended): `split_long_segments` maps each segment independently;
    segments with `duration ≤ max_duration` pass through unchanged, and a
    longer segment is replaced by exactly `max(1, int(duration/max_duration))`
    — the *floor*, not the ceiling — sub-segments of equal duration
    `duration / k` (the word list goes `⌊n/k⌋` words to each of the first
    `k - 1` sub-segments and the remainder to the last). -/
theorem c8_amended (maxDur : ℚ) (segs : List Caption) (seg : Caption) :
    splitLongSegments segs maxDur = segs.flatMap (splitSegOne maxDur) ∧
    (seg.end_time - seg.start_time ≤ maxDur → splitSegOne maxDur seg = [seg]) ∧
    (maxDur < seg.end_time - seg.start_time →
      (splitSegOne maxDur seg).length =
        (max 1 (pyInt ((seg.end_time - seg.start_time) / maxDur))).toNat ∧
      ∀ c ∈ splitSegOne maxDur seg,
        c.end_time - c.start_time =
          (seg.end_time - seg.start_time) /
            (((max 1 (pyInt ((seg.end_time - seg.start_time) / maxDur))).toNat : ℚ))) := by
  refine ⟨splitLongSegments_eq maxDur segs, ?_, ?_⟩
  · intro h
    simp [splitSegOne, h]
  · intro h
    have hnot : ¬(seg.end_time - seg.start_time ≤ maxDur) := not_le.mpr h
    constructor
    · simp [splitSegOne, hnot]
    · intro c hc
      simp only [splitSegOne, if_neg hnot] at hc
      obtain ⟨i, -, rfl⟩ := List.mem_map.mp hc
      ring

/-- C8 witness: pass-through at duration 5 ≤ 8, and the sub-segment count for
    a 33-second segment at the default 8-second maximum. -/
theorem c8_witness :
    splitSegOne 8 segShort = [segShort] ∧
    (splitSegOne 8 segLong).length =
      (max 1 (pyInt ((segLong.end_time - segLong.start_time) / 8))).toNat :=
  ⟨(c8_amended 8 [] segShort).2.1 (by decide),
   ((c8_amended 8 [] segLong).2.2 (by decide)).1⟩

/-- C8 counterexample: a 33-second, 7-word segment at `max_duration = 8` is
    split into `max(1, int(33/8)) = 4` sub-segments, not `⌈33/8⌉ = 5`, and the
    word split is `1,1,1,4` — not as even as possible. -/
theorem c8_counterexample :
    (splitLongSegments [segLong] 8).map (fun c => c.word_count) = [1, 1, 1, 4] ∧
    (splitLongSegments [segLong] 8).length ≠ (⌈(33 : ℚ) / 8⌉).toNat := by decide

/-! ## C9 — cascading fallback never fails -/

/-- C9: `_calculate_timing` is a total function of the (option-typed) aligner
    outcomes — no exception escapes it — and whenever the word aligner is
    unavailable (`none`: ASR missing, load/transcription error, or zero word
    timings), any silence outcome (including not-available `none` and the
    falsy empty span list) still yields exactly one segment per unit, the
    heuristic path serving as the terminal fallback. -/
theorem c9_fallback :
    ∀ (units : List ScriptUnit) (A : ℚ) (m : Option (List (Nat × String)))
      (sOpt : Option (List Span)), units ≠ [] → 0 < A →
      (calcTiming units A m none sOpt).length = units.length ∧
      calcTiming units A m none sOpt ≠ [] := by
  intro units A m sOpt hu hA
  have hlen : (calcTiming units A m none sOpt).length = units.length := by
    unfold calcTiming
    rw [if_neg (by simpa [List.isEmpty_iff] using hu)]
    cases sOpt with
    | none => exact heuristicTiming_length units A m
    | some spans =>
      show (if spans.isEmpty = true then heuristicTiming units A m
        else silenceBuild units spans m A).length = units.length
      by_cases hsp : spans.isEmpty
      · rw [if_pos hsp]
        exact heuristicTiming_length units A m
      · rw [if_neg hsp]
        exact silenceBuild_length units spans m A
  refine ⟨hlen, fun he => hu (List.length_eq_zero.mp ?_)⟩
  rw [he] at hlen
  exact hlen.symm

/-- C9 witness: scenario S1 with both aligners unavailable. -/
theorem c9_witness :
    (calcTiming (parseScript s1Script) 6 none none none).length =
      (parseScript s1Script).length ∧
    calcTiming (parseScript s1Script) 6 none none none ≠ [] :=
  ⟨(c9_fallback (parseScript s1Script) 6 none none (by decide) (by norm_num)).1,
   (c9_fallback (parseScript s1Script) 6 none none (by decide) (by norm_num)).2⟩

/-! ## C10 — empty-text speaker lines update the current speaker -/

/-- C10: a line matching the speaker pattern with empty remaining text emits
    no unit but still updates the tracked speaker: every following run of
    bare, non-matching, non-empty lines parses to exactly those lines' units,
    all carrying the new speaker id, regardless of the previous state. -/
theorem c10_speaker_update (cur : Option Nat) (line : String) (n : Nat) (g2 : String)
    (bare : List String)
    (hm : matchSpeakerLine (pyStrip line) = some (n, g2)) (hg : pyStrip g2 = "")
    (hb : ∀ l ∈ bare, pyStrip l ≠ "" ∧ matchSpeakerLine (pyStrip l) = none) :
    parseLines cur (line :: bare) = bare.flatMap (fun l => splitLongSegment n (pyStrip l)) ∧
    ∀ u ∈ parseLines cur (line :: bare), u.speaker_id = n := by
  have hne : pyStrip line ≠ "" := matchSpeakerLine_ne_empty hm
  have heq : parseLines cur (line :: bare) =
      bare.flatMap (fun l => splitLongSegment n (pyStrip l)) := by
    simp only [parseLines, if_neg hne, hm, hg, ne_eq, not_true_eq_false, if_false,
      List.nil_append]
    exact parseLines_bare n bare hb
  refine ⟨heq, ?_⟩
  intro u hu
  rw [heq] at hu
  obtain ⟨l, -, hul⟩ := List.mem_flatMap.mp hu
  exact splitLongSegment_speaker n (pyStrip l) u hul

/-- C10 witness: the line `"Speaker 3:"` followed by one bare line. -/
theorem c10_witness :
    matchSpeakerLine (pyStrip "Speaker 3:") = some (3, "") ∧
    parseLines none ["Speaker 3:", "hello there"] =
      ["hello there"].flatMap (fun l => splitLongSegment 3 (pyStrip l)) :=
  ⟨by decide,
   (c10_speaker_update none "Speaker 3:" 3 "" ["hello there"] (by decide) (by decide)
     (by decide)).1⟩

/-- C4 witness: the flush rule applied at the S2 word counts (bucket of 10
    words, incoming 6-word sentence). -/
theorem c4_witness :
    10 + wordCount "Eleven twelve thirteen fourteen fifteen sixteen." > maxWords ∧
    chunkAux ["One two three four five six seven eight nine ten."] 10
        ["Eleven twelve thirteen fourteen fifteen sixteen."] =
      ["One two three four five six seven eight nine ten."] ::
        chunkAux ["Eleven twelve thirteen fourteen fifteen sixteen."]
          (wordCount "Eleven twelve thirteen fourteen fifteen sixteen.") [] :=
  ⟨by decide,
   c4_packing.1 ["One two three four five six seven eight nine ten."] 10
     "Eleven twelve thirteen fourteen fifteen sixteen." [] (by decide) (by decide)⟩
